import Mathlib

/-!
Verification development for the inflection-ai-sdk-provider message-conversion
and stream-decoding core (`src/convert-to-inflection-chat-messages.ts` and the
`InflectionChatLanguageModel` class).

The TypeScript source is shallowly embedded: prompts, wire messages, stream
chunks and stream events become inductive types; the converter, the request
builder, the non-streaming response decoder and the streaming transform become
executable Lean functions translated clause-by-clause from the source.  The
host `JSON.parse` is treated as an external collaborator: the decoder
definitions take an arbitrary `parse : String → Option Json` parameter, and a
concrete executable model `jsonParse` is provided for evaluating theorems on
concrete inputs.
-/

/-- A JSON value: the model of the arbitrary structured values the host
language passes as tool-call `args` / tool-result `result`, and of values
produced by `JSON.parse`. -/
inductive Json where
  | null : Json
  | bool (b : Bool) : Json
  | num (n : Int) : Json
  | str (s : String) : Json
  | arr (items : List Json) : Json
  | obj (members : List (String × Json)) : Json

/-- Decimal digit character. -/
def digitChar (d : Nat) : Char := Char.ofNat (48 + d)

/-- Decimal digits of a natural number, most significant first. -/
def natDigits (n : Nat) : List Char :=
  if _h : n < 10 then [digitChar n]
  else natDigits (n / 10) ++ [digitChar (n % 10)]
decreasing_by exact Nat.div_lt_self (by omega) (by omega)

/-- Decimal rendering of a natural number. -/
def natRepr (n : Nat) : String := String.mk (natDigits n)

/-- Decimal rendering of an integer (model of how JSON.stringify renders the
integer-valued numbers used in this development). -/
def intRepr (i : Int) : String :=
  if i < 0 then "-" ++ natRepr i.natAbs else natRepr i.toNat

/-- JSON string escaping for a single character. -/
def escapeChar (c : Char) : String :=
  if c = '"' then "\\\""
  else if c = '\\' then "\\\\"
  else if c = '\n' then "\\n"
  else if c = '\t' then "\\t"
  else if c = '\r' then "\\r"
  else String.singleton c

/-- A JSON-quoted string literal. -/
def quoteString (s : String) : String :=
  "\"" ++ String.join (s.toList.map escapeChar) ++ "\""

mutual

/-- Model of the host `JSON.stringify` on `Json` values. -/
def Json.stringify : Json → String
  | .null => "null"
  | .bool true => "true"
  | .bool false => "false"
  | .num n => intRepr n
  | .str s => quoteString s
  | .arr items => "[" ++ Json.stringifyItems items ++ "]"
  | .obj members => "\x7b" ++ Json.stringifyMembers members ++ "\x7d"

/-- Comma-separated rendering of array items. -/
def Json.stringifyItems : List Json → String
  | [] => ""
  | [x] => Json.stringify x
  | x :: y :: rest => Json.stringify x ++ "," ++ Json.stringifyItems (y :: rest)

/-- Comma-separated rendering of object members. -/
def Json.stringifyMembers : List (String × Json) → String
  | [] => ""
  | [(k, v)] => quoteString k ++ ":" ++ Json.stringify v
  | (k, v) :: m :: rest =>
      quoteString k ++ ":" ++ Json.stringify v ++ "," ++
        Json.stringifyMembers (m :: rest)

end

/-- The left-brace character (written numerically). -/
def lbrace : Char := Char.ofNat 123

/-- The right-brace character (written numerically). -/
def rbrace : Char := Char.ofNat 125

/-- JSON whitespace. -/
def isJsonWs (c : Char) : Bool := c = ' ' || c = '\n' || c = '\t' || c = '\r'

/-- Drop leading JSON whitespace. -/
def skipWs : List Char → List Char
  | [] => []
  | c :: cs => if isJsonWs c then skipWs cs else c :: cs

/-- ASCII decimal digit test. -/
def isDigitCh (c : Char) : Bool := 48 ≤ c.toNat && c.toNat ≤ 57

/-- Split a character list into its leading digit run and the remainder. -/
def takeDigits : List Char → List Char × List Char
  | [] => ([], [])
  | c :: cs =>
    if isDigitCh c then
      let p := takeDigits cs
      (c :: p.1, p.2)
    else ([], c :: cs)

/-- Numeric value of a digit run. -/
def digitsToNat (ds : List Char) : Nat :=
  ds.foldl (fun a c => a * 10 + (c.toNat - 48)) 0

/-- JSON string-escape resolution for the character after a backslash. -/
def unescapeChar (c : Char) : Option Char :=
  if c = '"' then some '"'
  else if c = '\\' then some '\\'
  else if c = '/' then some '/'
  else if c = 'n' then some '\n'
  else if c = 't' then some '\t'
  else if c = 'r' then some '\r'
  else none

/-- Parse the body of a JSON string (after the opening quote), returning the
decoded characters and the remainder after the closing quote. -/
def parseStringChars : List Char → Option (List Char × List Char)
  | [] => none
  | '"' :: cs => some ([], cs)
  | '\\' :: [] => none
  | '\\' :: e :: cs =>
    match unescapeChar e with
    | some u => (parseStringChars cs).map fun p => (u :: p.1, p.2)
    | none => none
  | c :: cs => (parseStringChars cs).map fun p => (c :: p.1, p.2)

mutual

/-- Fueled recursive-descent parser for a JSON value: the executable model of
the host `JSON.parse` on the JSON subset exercised in this development. -/
def parseJsonValue : Nat → List Char → Option (Json × List Char)
  | 0, _ => none
  | fuel + 1, cs =>
    match skipWs cs with
    | 'n' :: 'u' :: 'l' :: 'l' :: rest => some (.null, rest)
    | 't' :: 'r' :: 'u' :: 'e' :: rest => some (.bool true, rest)
    | 'f' :: 'a' :: 'l' :: 's' :: 'e' :: rest => some (.bool false, rest)
    | '"' :: rest => (parseStringChars rest).map fun p => (.str (String.mk p.1), p.2)
    | '-' :: rest =>
      (match takeDigits rest with
       | ([], _) => none
       | (ds, rest2) => some (.num (-(digitsToNat ds : Int)), rest2))
    | '[' :: rest =>
      (match skipWs rest with
       | ']' :: rest2 => some (.arr [], rest2)
       | cs2 => (parseJsonItems fuel cs2).map fun p => (.arr p.1, p.2))
    | c :: rest =>
      if c = lbrace then
        (match skipWs rest with
         | [] => none
         | c2 :: rest2 =>
           if c2 = rbrace then some (.obj [], rest2)
           else (parseJsonMembers fuel (c2 :: rest2)).map fun p => (.obj p.1, p.2))
      else if isDigitCh c then
        (match takeDigits (c :: rest) with
         | ([], _) => none
         | (ds, rest2) => some (.num (digitsToNat ds : Int), rest2))
      else none
    | [] => none

/-- Fueled parser for the items of a non-empty JSON array (after `[`). -/
def parseJsonItems : Nat → List Char → Option (List Json × List Char)
  | 0, _ => none
  | fuel + 1, cs => do
    let p ← parseJsonValue fuel cs
    match skipWs p.2 with
    | ',' :: rest2 => (parseJsonItems fuel rest2).map fun q => (p.1 :: q.1, q.2)
    | ']' :: rest2 => some ([p.1], rest2)
    | _ => none

/-- Fueled parser for the members of a non-empty JSON object. -/
def parseJsonMembers : Nat → List Char → Option (List (String × Json) × List Char)
  | 0, _ => none
  | fuel + 1, cs =>
    match skipWs cs with
    | '"' :: rest =>
      (match parseStringChars rest with
       | none => none
       | some (key, rest2) =>
         match skipWs rest2 with
         | ':' :: rest3 => do
           let p ← parseJsonValue fuel rest3
           (match skipWs p.2 with
            | [] => none
            | c :: rest5 =>
              if c = ',' then
                (parseJsonMembers fuel rest5).map fun q =>
                  ((String.mk key, p.1) :: q.1, q.2)
              else if c = rbrace then some ([(String.mk key, p.1)], rest5)
              else none)
         | _ => none)
    | _ => none

end

/-- Executable model of the host `JSON.parse`: parse a whole string as one
JSON value with nothing but whitespace after it. -/
def jsonParse (s : String) : Option Json :=
  match parseJsonValue (s.length + 1) s.toList with
  | some (v, rest) => if skipWs rest = [] then some v else none
  | none => none

example : jsonParse "" = none := by rfl
example : jsonParse "\x7b" = none := by rfl
example : jsonParse "\x7d" = none := by rfl
example : jsonParse "\x7b\x7d" = some (.obj []) := by rfl
example : jsonParse "null" = some .null := by rfl
example : jsonParse "\x7b\"a\":1\x7d" = some (.obj [("a", .num 1)]) := by rfl
example : Json.stringify (.obj [("key", .str "arg-value")]) =
    "\x7b\"key\":\"arg-value\"\x7d" := by rfl

/-! ## The normalized prompt model (`LanguageModelV1Prompt`) -/

/-- Role of a normalized prompt message. -/
inductive MessageRole where
  | user : MessageRole
  | assistant : MessageRole
  | system : MessageRole
  | tool : MessageRole
deriving DecidableEq, Repr

/-- A typed content part of a normalized prompt message.  The payloads of
`image` and `file` parts are irrelevant to the converter and carried as
strings. -/
inductive ContentPart where
  | text (text : String) : ContentPart
  | image (image : String) : ContentPart
  | file (data : String) (mimeType : String) : ContentPart
  | toolCall (toolCallId : String) (toolName : String) (args : Json) : ContentPart
  | toolResult (toolCallId : String) (toolName : String) (result : Json) : ContentPart

/-- Message content: either a plain string or a sequence of typed parts. -/
inductive MessageContent where
  | str (s : String) : MessageContent
  | parts (ps : List ContentPart) : MessageContent

/-- One normalized prompt message. -/
structure PromptMessage where
  role : MessageRole
  content : MessageContent

/-- The model identifiers of `inflection-chat-settings.ts`. -/
inductive InflectionChatModelId where
  | inflection_3_pi : InflectionChatModelId
  | inflection_3_productivity : InflectionChatModelId
  | inflection_3_with_tools : InflectionChatModelId
deriving DecidableEq, Repr

/-! ## The vendor wire model -/

/-- The `function` payload of a wire tool call. -/
structure ToolCallFunction where
  name : String
  arguments : String
deriving DecidableEq, Repr

/-- A wire tool call `{id, type: "function", function: {name, arguments}}`;
the constant `type: "function"` tag is implicit in the Lean type. -/
structure WireToolCall where
  id : String
  function : ToolCallFunction
deriving DecidableEq, Repr

/-- The `type` tag of an `InflectionMessage`. -/
inductive InflectionRole where
  | Human : InflectionRole
  | AI : InflectionRole
  | Instruction : InflectionRole
  | Tool : InflectionRole
deriving DecidableEq, Repr

/-- A vendor wire message (`InflectionMessage` in the source; the optional
`ts` field is never set by the converter and is omitted). -/
structure InflectionMessage where
  type : InflectionRole
  text : String
  tool_calls : Option (List WireToolCall) := none
  tool_call_id : Option String := none
deriving DecidableEq, Repr

/-- The only error the converter can raise: the source throws
`UnsupportedFunctionalityError` in every reachable failure branch (the
exhaustiveness `default` branches are unreachable for well-typed input, which
the closed Lean unions make precise). -/
inductive ConvError where
  | unsupportedFunctionality (functionality : String) : ConvError

/-! ## `convertToInflectionChatMessages` -/

/-- The part-accumulation loop of `convertToInflectionChatMessages`: folds the
content parts of one message, concatenating `text` parts, collecting wire tool
calls (tool-capable model only), and letting a `tool-result` part replace the
accumulated text; `image` and `file` parts fail. -/
def accumParts (modelId : InflectionChatModelId) :
    List ContentPart → String → List WireToolCall →
    Except ConvError (String × List WireToolCall)
  | [], text, toolCalls => .ok (text, toolCalls)
  | .text t :: ps, text, toolCalls => accumParts modelId ps (text ++ t) toolCalls
  | .toolCall id name args :: ps, text, toolCalls =>
    if modelId = .inflection_3_with_tools then
      accumParts modelId ps text
        (toolCalls ++ [{ id := id, function := { name := name, arguments := Json.stringify args } }])
    else
      .error (.unsupportedFunctionality
        "Tool calls are only supported with the inflection_3_with_tools model")
  | .toolResult _ _ result :: ps, _, toolCalls =>
    if modelId = .inflection_3_with_tools then
      accumParts modelId ps (Json.stringify result) toolCalls
    else
      .error (.unsupportedFunctionality
        "Tool results are only supported with the inflection_3_with_tools model")
  | .image _ :: _, _, _ =>
    .error (.unsupportedFunctionality
      "Image content parts are not supported by Inflection AI at this time")
  | .file _ _ :: _, _, _ =>
    .error (.unsupportedFunctionality
      "File content parts are not supported by Inflection AI at this time")

/-- Is a content part a `tool-result`? -/
def ContentPart.isToolResultPart : ContentPart → Bool
  | .toolResult _ _ _ => true
  | _ => false

/-- The `toolCallId` of a `tool-result` part (irrelevant otherwise). -/
def ContentPart.resultToolCallId : ContentPart → Option String
  | .toolResult id _ _ => some id
  | _ => none

/-- `content.find((part) => part.type === "tool-result")?.toolCallId` for the
`tool` role branch; for string content the source yields `undefined`. -/
def findToolResultId : MessageContent → Option String
  | .str _ => none
  | .parts ps =>
    match ps.find? ContentPart.isToolResultPart with
    | some p => p.resultToolCallId
    | none => none

/-- Conversion of one prompt message: the loop body of
`convertToInflectionChatMessages`.  Returns `none` when the message is skipped
(empty text and no tool calls, or a `tool`-role message with empty text). -/
def convertMessage (modelId : InflectionChatModelId) (m : PromptMessage) :
    Except ConvError (Option InflectionMessage) := do
  let (text, toolCalls) ←
    match m.content with
    | .str s => .ok (s, [])
    | .parts ps => accumParts modelId ps "" []
  -- Skip empty messages unless they have tool calls
  if text = "" ∧ toolCalls = [] then
    .ok none
  else
    match m.role with
    | .user => .ok (some { type := .Human, text := text })
    | .assistant =>
      .ok (some
        { type := .AI
          text := text
          tool_calls :=
            if modelId = .inflection_3_with_tools ∧ toolCalls ≠ [] then some toolCalls
            else none })
    | .system => .ok (some { type := .Instruction, text := text })
    | .tool =>
      if text ≠ "" then
        .ok (some
          { type := .Tool
            text := text
            tool_call_id :=
              match findToolResultId m.content with
              | some id => if id = "" then none else some id
              | none => none })
      else
        .ok none

/-- `convertToInflectionChatMessages`: converts a normalized prompt to the
vendor context, skipping messages that produce no entry. -/
def convertToInflectionChatMessages (prompt : List PromptMessage)
    (modelId : InflectionChatModelId) :
    Except ConvError (List InflectionMessage) :=
  match prompt with
  | [] => .ok []
  | m :: rest => do
    let entry ← convertMessage modelId m
    let tail ← convertToInflectionChatMessages rest modelId
    match entry with
    | some e => .ok (e :: tail)
    | none => .ok tail

/-! ## `convertPromptToOpenAIMessages` -/

/-- An OpenAI-compatible chat message as built by
`convertPromptToOpenAIMessages` (role is passed through unchanged). -/
structure OpenAIMessage where
  role : MessageRole
  content : String
  tool_calls : Option (List WireToolCall) := none
  tool_call_id : Option String := none
deriving DecidableEq, Repr

/-- The part loop of `convertPromptToOpenAIMessages`: text parts append,
tool-call parts collect, a tool-result part replaces the accumulated text, and
every other part type is silently skipped (`default: break`). -/
def accumOpenAIParts : List ContentPart → String → List WireToolCall →
    String × List WireToolCall
  | [], text, toolCalls => (text, toolCalls)
  | .text t :: ps, text, toolCalls => accumOpenAIParts ps (text ++ t) toolCalls
  | .toolCall id name args :: ps, text, toolCalls =>
    accumOpenAIParts ps text
      (toolCalls ++ [{ id := id, function := { name := name, arguments := Json.stringify args } }])
  | .toolResult _ _ result :: ps, _, toolCalls =>
    accumOpenAIParts ps (Json.stringify result) toolCalls
  | .image _ :: ps, text, toolCalls => accumOpenAIParts ps text toolCalls
  | .file _ _ :: ps, text, toolCalls => accumOpenAIParts ps text toolCalls

/-- Conversion of one prompt message to the OpenAI-compatible shape. -/
def convertOpenAIMessage (m : PromptMessage) : OpenAIMessage :=
  match m.content with
  | .str s => { role := m.role, content := s }
  | .parts ps =>
    let (textContent, toolCalls) := accumOpenAIParts ps "" []
    { role := m.role
      content := textContent
      tool_calls := if toolCalls ≠ [] then some toolCalls else none
      tool_call_id :=
        if m.role = .tool then
          match ps.find? ContentPart.isToolResultPart with
          | some p => p.resultToolCallId
          | none => none
        else none }

/-- `convertPromptToOpenAIMessages`: total, never fails. -/
def convertPromptToOpenAIMessages (prompt : List PromptMessage) :
    List OpenAIMessage :=
  prompt.map convertOpenAIMessage

/-! ## Request building (`InflectionChatLanguageModel.getArgs`) -/

/-- A declared tool of the host framework (`LanguageModelV1` tools). -/
inductive V1Tool where
  | function (name : String) (description : Option String) (parameters : Json) : V1Tool
  | providerDefined (id : String) (name : String) : V1Tool

/-- Look up a field of a JSON object value (`undefined` when absent or when
the value is not an object). -/
def Json.getField : Json → String → Option Json
  | .obj members, key =>
    match members.find? (fun m => m.1 = key) with
    | some m => some m.2
    | none => none
  | _, _ => none

/-- A tool in the vendor request shape (`InflectionTool`); the constant
`type: "function"` and `parameters.type: "object"` tags are implicit. -/
structure InflectionTool where
  name : String
  description : Option String
  properties : Option Json
  required : Option Json

/-- Keep only `function` tools and map them to the vendor shape. -/
def mapTools (tools : List V1Tool) : List InflectionTool :=
  (tools.filterMap fun t =>
    match t with
    | .function name description parameters =>
      some { name := name
             description := description
             properties := parameters.getField "properties"
             required := parameters.getField "required" }
    | .providerDefined _ _ => none)

/-- The request body assembled by `getArgs` (sampling passthrough fields
`max_tokens`, `temperature`, `top_p`, `stop_tokens`, `web_search` and
`metadata` are claim-irrelevant and omitted). -/
structure RequestArgs where
  config : InflectionChatModelId
  context : List InflectionMessage
  tools : Option (List InflectionTool)

/-- `mode.tools?.length` as a truthiness test. -/
def hasDeclaredTools (tools : Option (List V1Tool)) : Bool :=
  match tools with
  | some (_ :: _) => true
  | _ => false

/-- `InflectionChatLanguageModel.getArgs` for a `regular`-mode call with the
given declared tools: fails fast when tools are declared on a model that is
not tool-capable, then builds the request body around the converted context. -/
def getArgs (modelId : InflectionChatModelId) (tools : Option (List V1Tool))
    (prompt : List PromptMessage) : Except ConvError RequestArgs :=
  if hasDeclaredTools tools ∧ modelId ≠ .inflection_3_with_tools then
    .error (.unsupportedFunctionality
      "Tool calls are only supported with the inflection_3_with_tools model")
  else do
    let context ← convertToInflectionChatMessages prompt modelId
    .ok { config := modelId
          context := context
          tools :=
            if hasDeclaredTools tools then some (mapTools (tools.getD []))
            else none }

/-! ## Non-streaming response decoding (`doGenerate`) -/

/-- A JSON field that may be absent, explicitly `null`, or present. -/
inductive NullableField (α : Type) where
  | absent : NullableField α
  | null : NullableField α
  | value (a : α) : NullableField α
deriving DecidableEq, Repr

/-- The raw non-streaming vendor response, before the zod transform of
`inflectionChatResponseSchema` (shape-valid payloads only; shape violations
are a transport-level failure outside this model). -/
structure RawChatResponse where
  created : Nat
  text : String
  tool_calls : NullableField (List WireToolCall)

/-- The decoded response: `tool_calls` is `.array(...).nullable()
.transform((val) => val ?? []).optional()`, so an absent field stays absent
and a `null` field is normalized to the empty array. -/
structure ChatResponse where
  created : Nat
  text : String
  tool_calls : Option (List WireToolCall)

/-- The zod decode of `inflectionChatResponseSchema` on a shape-valid payload. -/
def decodeChatResponse (r : RawChatResponse) : ChatResponse :=
  { created := r.created
    text := r.text
    tool_calls :=
      match r.tool_calls with
      | .absent => none
      | .null => some []
      | .value v => some v }

/-- Normalized finish reason of the host framework. -/
inductive FinishReason where
  | stop : FinishReason
  | length : FinishReason
  | contentFilter : FinishReason
  | toolCalls : FinishReason
deriving DecidableEq, Repr

/-- `response.tool_calls?.length ? "tool-calls" : "stop"`. -/
def responseFinishReason (resp : ChatResponse) : FinishReason :=
  match resp.tool_calls with
  | some (_ :: _) => .toolCalls
  | _ => .stop

/-- Token usage estimate. -/
structure Usage where
  promptTokens : Nat
  completionTokens : Nat
deriving DecidableEq, Repr

/-- `Math.ceil(n / 4)` on a natural number. -/
def ceilDiv4 (n : Nat) : Nat := (n + 3) / 4

/-- The concatenated text of the wire context:
`rawPrompt.map((m) => m.text).join("")`. -/
def promptText : List InflectionMessage → String
  | [] => ""
  | m :: rest => m.text ++ promptText rest

/-- A normalized tool call (`LanguageModelV1FunctionToolCall`). -/
structure NormalizedToolCall where
  toolCallId : String
  toolName : String
  args : Json

/-- Failure of the non-streaming result assembly: `JSON.parse` throwing on a
tool call's `arguments` propagates out of `doGenerate`. -/
inductive GenerateError where
  | argumentDecodeFailure (arguments : String) : GenerateError

/-- The normalized non-streaming result (response-metadata, raw-call and
header fields are claim-irrelevant and omitted). -/
structure GenerateResult where
  text : String
  finishReason : FinishReason
  usage : Usage
  toolCalls : Option (List NormalizedToolCall)

/-- `response.tool_calls?.map((call) => ... JSON.parse(call.function.arguments)
...)`: decodes every wire tool call in order; the first invalid `arguments`
string aborts the whole decode with a hard error, exactly as a thrown
`SyntaxError` aborts the `.map` callback. -/
def decodeToolCalls (parse : String → Option Json) :
    List WireToolCall → Except GenerateError (List NormalizedToolCall)
  | [] => .ok []
  | call :: rest =>
    match parse call.function.arguments with
    | some args => do
      let tail ← decodeToolCalls parse rest
      .ok ({ toolCallId := call.id, toolName := call.function.name, args := args } :: tail)
    | none => .error (.argumentDecodeFailure call.function.arguments)

/-- The response-processing tail of `doGenerate`: token estimation, tool-call
argument decoding (hard failure on invalid JSON) and finish-reason
resolution.  `parse` is the host `JSON.parse`. -/
def processGenerateResponse (parse : String → Option Json)
    (context : List InflectionMessage) (resp : ChatResponse) :
    Except GenerateError GenerateResult := do
  let promptTokens := ceilDiv4 (promptText context).length
  let completionTokens := ceilDiv4 resp.text.length
  let toolCalls ←
    match resp.tool_calls with
    | none => Except.ok (none : Option (List NormalizedToolCall))
    | some calls => do
      let l ← decodeToolCalls parse calls
      Except.ok (some l)
  .ok { text := resp.text
        finishReason := responseFinishReason resp
        usage := { promptTokens := promptTokens, completionTokens := completionTokens }
        toolCalls := toolCalls }

/-! ## Stream decoding (`doStream` transform and flush) -/

/-- A normalized stream event (`LanguageModelV1StreamPart` as produced by
this provider). -/
inductive StreamEvent where
  | responseMetadata (timestampMs : Nat) : StreamEvent
  | textDelta (textDelta : String) : StreamEvent
  | toolCallDelta (toolCallId : String) (toolName : String) (argsTextDelta : String) : StreamEvent
  | toolCall (toolCallId : String) (toolName : String) (args : Json) : StreamEvent
  | error (msg : String) : StreamEvent
  | finish (finishReason : FinishReason) (usage : Usage) : StreamEvent

/-- A vendor-native stream chunk (`inflectionStreamChunkSchema`). -/
structure NativeChunk where
  created : Nat
  idx : Nat
  text : String
  tool_calls : Option (List WireToolCall)

/-- The `finish_reason` wire values of the OpenAI-compatible stream
(`z.enum(["stop", "length", "content-filter", "tool_calls"])`). -/
inductive WireFinishReason where
  | wStop : WireFinishReason
  | wLength : WireFinishReason
  | wContentFilter : WireFinishReason
  | wToolCalls : WireFinishReason
deriving DecidableEq, Repr

/-- The per-chunk mapping of `choice.finish_reason` to a normalized finish
reason ("tool_calls" and "content-filter" are renamed, the rest pass
through). -/
def mapWireFinishReason : WireFinishReason → FinishReason
  | .wToolCalls => .toolCalls
  | .wContentFilter => .contentFilter
  | .wStop => .stop
  | .wLength => .length

/-- The `delta` of an OpenAI-compatible choice. -/
structure OpenAIDelta where
  content : Option String
  tool_calls : Option (List WireToolCall)

/-- One choice of an OpenAI-compatible stream chunk. -/
structure OpenAIChoice where
  index : Nat
  delta : OpenAIDelta
  finish_reason : Option WireFinishReason

/-- An OpenAI-compatible stream chunk (`openAIStreamChunkSchema`; the constant
`object: "chat.completion.chunk"` tag is implicit). -/
structure OpenAIChunk where
  id : String
  created : Nat
  model : String
  choices : List OpenAIChoice

/-- The JSON value carried by one successfully deframed SSE chunk: it either
matches the OpenAI chunk schema, matches the vendor-native chunk schema, or
matches neither (`malformed`).  The zod `.parse` calls inside the transform
are the evident projections. -/
inductive ChunkValue where
  | openai (c : OpenAIChunk) : ChunkValue
  | native (c : NativeChunk) : ChunkValue
  | malformed : ChunkValue

/-- One raw wire event handed to the transform: a `ParseResult` that is
either a deframing failure (`chunk.success === false`) or a JSON value. -/
inductive RawChunk where
  | failure (msg : String) : RawChunk
  | success (v : ChunkValue) : RawChunk

/-- The decoder state carried across the stream: the pending finish reason
and the running completion-token count. -/
structure DecodeState where
  finishReason : FinishReason
  completionTokens : Nat
deriving DecidableEq, Repr

/-- Initial decoder state: `finishReason = "stop"`, `completionTokens = 0`. -/
def initState : DecodeState := { finishReason := .stop, completionTokens := 0 }

/-- Events for the tool calls of a vendor-native chunk: each call's arguments
are JSON-decoded; success emits `tool-call`, failure emits `error`, and the
loop continues with the remaining calls either way. -/
def toolCallEventsNative (parse : String → Option Json) :
    List WireToolCall → List StreamEvent
  | [] => []
  | call :: rest =>
    (match parse call.function.arguments with
     | some args => StreamEvent.toolCall call.id call.function.name args
     | none => StreamEvent.error "Failed to process tool call") ::
      toolCallEventsNative parse rest

/-- Events for the tool-call entries of an OpenAI-compatible delta: a
`tool-call-delta` is emitted unconditionally for each entry, then that
entry's own arguments text is JSON-decoded; success additionally emits
`tool-call`, failure emits `error`, and the loop continues either way. -/
def toolCallEventsOpenAI (parse : String → Option Json) :
    List WireToolCall → List StreamEvent
  | [] => []
  | call :: rest =>
    (StreamEvent.toolCallDelta call.id call.function.name call.function.arguments ::
      (match parse call.function.arguments with
       | some args => [StreamEvent.toolCall call.id call.function.name args]
       | none => [StreamEvent.error "Failed to process tool call"])) ++
      toolCallEventsOpenAI parse rest

/-- Transform step for one parsed vendor-native chunk: unconditional token
accounting, `response-metadata` on `idx === 0`, `text-delta` for non-empty
text, per-call tool events, and `finishReason = "tool-calls"` when the chunk
carries tool calls. -/
def stepNative (parse : String → Option Json) (s : DecodeState)
    (c : NativeChunk) : DecodeState × List StreamEvent :=
  let completionTokens := s.completionTokens + ceilDiv4 c.text.length
  let metaEvents : List StreamEvent :=
    if c.idx = 0 then [.responseMetadata (c.created * 1000)] else []
  let textEvents : List StreamEvent :=
    if c.text = "" then [] else [.textDelta c.text]
  let toolEvents :=
    match c.tool_calls with
    | some calls => toolCallEventsNative parse calls
    | none => []
  let finishReason :=
    match c.tool_calls with
    | some (_ :: _) => FinishReason.toolCalls
    | _ => s.finishReason
  ({ finishReason := finishReason, completionTokens := completionTokens },
    metaEvents ++ textEvents ++ toolEvents)

/-- Transform step for one parsed OpenAI-compatible chunk: reads
`choices[0]` (an empty `choices` array makes the transform throw, which the
surrounding try/catch turns into a single `error` event), emits `text-delta`
for non-empty `delta.content` with token accounting, per-entry tool events,
sets `finishReason = "tool-calls"` when tool-call entries are present, and
finally applies the `finish_reason` mapping when one is present. -/
def stepOpenAI (parse : String → Option Json) (s : DecodeState)
    (c : OpenAIChunk) : DecodeState × List StreamEvent :=
  match c.choices with
  | [] => (s, [.error "Failed to parse response"])
  | choice :: _ =>
    let delta := choice.delta
    let contentStep :
        Nat × List StreamEvent :=
      match delta.content with
      | some t =>
        if t = "" then (s.completionTokens, [])
        else (s.completionTokens + ceilDiv4 t.length, [.textDelta t])
      | none => (s.completionTokens, [])
    let toolStep : List StreamEvent × FinishReason :=
      match delta.tool_calls with
      | some (call :: rest) =>
        (toolCallEventsOpenAI parse (call :: rest), FinishReason.toolCalls)
      | _ => ([], s.finishReason)
    let finishReason :=
      match choice.finish_reason with
      | some w => mapWireFinishReason w
      | none => toolStep.2
    ({ finishReason := finishReason, completionTokens := contentStep.1 },
      contentStep.2 ++ toolStep.1)

/-- Transform step for one raw wire event, dispatching on the wire format
selected once per stream (`useOpenAIEndpoint`).  A deframing failure or a
schema mismatch yields a single `error` event and leaves the state
unchanged. -/
def stepChunk (parse : String → Option Json) (useOpenAI : Bool)
    (s : DecodeState) (chunk : RawChunk) : DecodeState × List StreamEvent :=
  match chunk with
  | .failure msg => (s, [.error msg])
  | .success v =>
    if useOpenAI then
      match v with
      | .openai c => stepOpenAI parse s c
      | _ => (s, [.error "Failed to parse response"])
    else
      match v with
      | .native c => stepNative parse s c
      | _ => (s, [.error "Failed to parse response"])

/-- Run the transform over the whole raw wire sequence, accumulating the
emitted events in order. -/
def runChunks (parse : String → Option Json) (useOpenAI : Bool) :
    DecodeState → List RawChunk → DecodeState × List StreamEvent
  | s, [] => (s, [])
  | s, chunk :: rest =>
    let step := stepChunk parse useOpenAI s chunk
    let tail := runChunks parse useOpenAI step.1 rest
    (tail.1, step.2 ++ tail.2)

/-- The full stream decoder: transform every chunk, then flush exactly one
terminal `finish` event carrying the final finish reason, the
`promptTokens` fixed at stream start, and the accumulated
`completionTokens`. -/
def decodeStream (parse : String → Option Json) (useOpenAI : Bool)
    (promptTokens : Nat) (chunks : List RawChunk) : List StreamEvent :=
  let run := runChunks parse useOpenAI initState chunks
  run.2 ++ [.finish run.1.finishReason
    { promptTokens := promptTokens, completionTokens := run.1.completionTokens }]

/-! ## Statement-side helper definitions -/

/-- The role mapping stated by the spec: user→Human, assistant→AI,
system→Instruction, tool→Tool. -/
def mapRole : MessageRole → InflectionRole
  | .user => .Human
  | .assistant => .AI
  | .system => .Instruction
  | .tool => .Tool

/-- Is a content part a plain `text` part? -/
def ContentPart.isTextPart : ContentPart → Bool
  | .text _ => true
  | _ => false

/-- Content consisting only of text (a plain string, or a part list all of
whose parts are `text`). -/
def MessageContent.textOnly : MessageContent → Bool
  | .str _ => true
  | .parts ps => ps.all ContentPart.isTextPart

/-- Verbatim, in-order concatenation of the `text` parts of a part list. -/
def textConcat : List ContentPart → String
  | [] => ""
  | .text t :: ps => t ++ textConcat ps
  | _ :: ps => textConcat ps

/-- The concatenated text of message content. -/
def MessageContent.flatText : MessageContent → String
  | .str s => s
  | .parts ps => textConcat ps

/-- Is a content part a `tool-call` or `tool-result`? -/
def ContentPart.isToolPart : ContentPart → Bool
  | .toolCall _ _ _ => true
  | .toolResult _ _ _ => true
  | _ => false

/-- Does a message contain a `tool-call` or `tool-result` part? -/
def PromptMessage.hasToolPart (m : PromptMessage) : Bool :=
  match m.content with
  | .str _ => false
  | .parts ps => ps.any ContentPart.isToolPart

/-- Is a content part an `image` or `file` part? -/
def ContentPart.isImageOrFilePart : ContentPart → Bool
  | .image _ => true
  | .file _ _ => true
  | _ => false

/-- Does a message contain an `image` or `file` part? -/
def PromptMessage.hasImageOrFilePart (m : PromptMessage) : Bool :=
  match m.content with
  | .str _ => false
  | .parts ps => ps.any ContentPart.isImageOrFilePart

/-- Remove `image` and `file` parts from a prompt, leaving everything else. -/
def stripUnsupportedParts (prompt : List PromptMessage) : List PromptMessage :=
  prompt.map fun m =>
    { m with content :=
        match m.content with
        | .str s => .str s
        | .parts ps => .parts (ps.filter fun p => !p.isImageOrFilePart) }

/-- Is a stream event the terminal `finish` event? -/
def StreamEvent.isFinishEvent : StreamEvent → Bool
  | .finish _ _ => true
  | _ => false

/-- Is a stream event a `text-delta`? -/
def StreamEvent.isTextDeltaEvent : StreamEvent → Bool
  | .textDelta _ => true
  | _ => false

/-- Is a stream event an `error`? -/
def StreamEvent.isErrorEvent : StreamEvent → Bool
  | .error _ => true
  | _ => false

/-- Is a stream event a completed `tool-call`? -/
def StreamEvent.isToolCallEvent : StreamEvent → Bool
  | .toolCall _ _ _ => true
  | _ => false

/-- Is a stream event a `tool-call-delta`? -/
def StreamEvent.isToolCallDeltaEvent : StreamEvent → Bool
  | .toolCallDelta _ _ _ => true
  | _ => false

/-- The `ceil(len/4)` token contribution of one stream event: non-zero only
for `text-delta` events. -/
def eventTokens : StreamEvent → Nat
  | .textDelta t => ceilDiv4 t.length
  | _ => 0

/-- Sum of the per-event token contributions over an event list: the spec's
"sum over emitted text deltas of ceil(len/4)". -/
def deltaTokens (events : List StreamEvent) : Nat :=
  (events.map eventTokens).sum

/-! ## Basic lemmas -/

theorem natDigits_ne_nil (n : Nat) : natDigits n ≠ [] := by
  rw [natDigits]
  split
  · simp
  · simp

theorem natRepr_length_pos (n : Nat) : 0 < (natRepr n).length := by
  have h := natDigits_ne_nil n
  rw [natRepr, String.length_mk]
  cases hd : natDigits n with
  | nil => exact absurd hd h
  | cons a l => simp

theorem intRepr_length_pos (i : Int) : 0 < (intRepr i).length := by
  rw [intRepr]
  split
  · rw [String.length_append]
    have := natRepr_length_pos i.natAbs
    omega
  · exact natRepr_length_pos i.toNat

theorem quoteString_length_pos (s : String) : 0 < (quoteString s).length := by
  rw [quoteString, String.length_append, String.length_append]
  have h1 : ("\"" : String).length = 1 := by decide
  omega

theorem stringify_length_pos (j : Json) : 0 < (Json.stringify j).length := by
  cases j with
  | null => decide
  | bool b => cases b <;> decide
  | num n => rw [Json.stringify]; exact intRepr_length_pos n
  | str s => rw [Json.stringify]; exact quoteString_length_pos s
  | arr items =>
    rw [Json.stringify, String.length_append, String.length_append]
    have h1 : ("[" : String).length = 1 := by decide
    omega
  | obj members =>
    rw [Json.stringify, String.length_append, String.length_append]
    have h1 : ("\x7b" : String).length = 1 := by decide
    omega

theorem stringify_ne_empty (j : Json) : Json.stringify j ≠ "" := by
  intro h
  have := stringify_length_pos j
  rw [h] at this
  simp at this

/-! ## Lemmas about the converter on text-only content -/

theorem accumParts_textOnly (modelId : InflectionChatModelId)
    (ps : List ContentPart) :
    ps.all ContentPart.isTextPart = true →
    ∀ (t : String) (tc : List WireToolCall),
      accumParts modelId ps t tc = .ok (t ++ textConcat ps, tc) := by
  induction ps with
  | nil => intro _ t tc; simp [accumParts, textConcat]
  | cons p ps ih =>
    intro h t tc
    cases p with
    | text s =>
      simp only [List.all_cons, Bool.and_eq_true] at h
      simp only [accumParts]
      rw [ih h.2 (t ++ s) tc]
      simp [textConcat, String.append_assoc]
    | image u => simp [ContentPart.isTextPart] at h
    | file d mt => simp [ContentPart.isTextPart] at h
    | toolCall a b c => simp [ContentPart.isTextPart] at h
    | toolResult a b c => simp [ContentPart.isTextPart] at h

theorem find?_toolResult_textOnly (ps : List ContentPart)
    (h : ps.all ContentPart.isTextPart = true) :
    ps.find? ContentPart.isToolResultPart = none := by
  induction ps with
  | nil => rfl
  | cons p ps ih =>
    simp only [List.all_cons, Bool.and_eq_true] at h
    cases p with
    | text s =>
      rw [List.find?]
      simp only [ContentPart.isToolResultPart]
      exact ih h.2
    | image u => simp [ContentPart.isTextPart] at h
    | file d mt => simp [ContentPart.isTextPart] at h
    | toolCall a b c => simp [ContentPart.isTextPart] at h
    | toolResult a b c => simp [ContentPart.isTextPart] at h

theorem convertMessage_textOnly (modelId : InflectionChatModelId)
    (m : PromptMessage) (h : m.content.textOnly = true) :
    convertMessage modelId m =
      .ok (if m.content.flatText = "" then none
           else some { type := mapRole m.role, text := m.content.flatText }) := by
  obtain ⟨role, content⟩ := m
  cases content with
  | str s =>
    by_cases hs : s = "" <;>
      cases role <;>
        simp [convertMessage, MessageContent.flatText, mapRole, hs, findToolResultId,
          Bind.bind, Except.bind]
  | parts ps =>
    simp only [MessageContent.textOnly] at h
    simp only [convertMessage, MessageContent.flatText]
    rw [accumParts_textOnly modelId ps h "" []]
    have hfind : findToolResultId (.parts ps) = none := by
      simp [findToolResultId, find?_toolResult_textOnly ps h]
    by_cases hs : textConcat ps = "" <;>
      cases role <;>
        simp [mapRole, hs, hfind, Bind.bind, Except.bind, String.empty_append]

/-- C3: For every normalized prompt whose messages contain only text content
parts (or plain string content), conversion maps user→Human, assistant→AI,
system→Instruction, tool→Tool, preserves the relative order of the input
messages, concatenates every text part verbatim in order, and drops exactly
those messages whose concatenated text is empty (no text-only message carries
tool calls). -/
theorem claim_C3_text_only_conversion (prompt : List PromptMessage)
    (modelId : InflectionChatModelId)
    (h : ∀ m ∈ prompt, m.content.textOnly = true) :
    convertToInflectionChatMessages prompt modelId =
      .ok (prompt.filterMap fun m =>
        if m.content.flatText = "" then none
        else some { type := mapRole m.role, text := m.content.flatText }) := by
  induction prompt with
  | nil => rfl
  | cons m rest ih =>
    have hm := h m (by simp)
    have hrest : ∀ x ∈ rest, x.content.textOnly = true := fun x hx => h x (by simp [hx])
    rw [convertToInflectionChatMessages]
    rw [convertMessage_textOnly modelId m hm, ih hrest]
    by_cases hf : m.content.flatText = "" <;>
      simp [hf, List.filterMap_cons, Bind.bind, Except.bind]

/-- Witness for C3 at a concrete prompt exercising all four roles, multi-part
text concatenation, and the empty-message drop. -/
theorem claim_C3_text_only_conversion_witness :
    convertToInflectionChatMessages
        [{ role := .user, content := .parts [.text "Hello ", .text "world!"] },
         { role := .assistant, content := .str "Hi" },
         { role := .system, content := .str "" },
         { role := .tool, content := .parts [.text "x"] }]
        .inflection_3_pi =
      .ok [{ type := .Human, text := "Hello world!" },
           { type := .AI, text := "Hi" },
           { type := .Tool, text := "x" }] := by
  have h := claim_C3_text_only_conversion
    [{ role := .user, content := .parts [.text "Hello ", .text "world!"] },
     { role := .assistant, content := .str "Hi" },
     { role := .system, content := .str "" },
     { role := .tool, content := .parts [.text "x"] }]
    .inflection_3_pi
    (by
      intro m hm
      simp only [List.mem_cons, List.not_mem_nil, or_false] at hm
      rcases hm with rfl | rfl | rfl | rfl <;> rfl)
  exact h.trans (by rfl)

/-! ## Lemmas about converter failure -/

theorem accumParts_toolPart_error (modelId : InflectionChatModelId)
    (hm : modelId ≠ .inflection_3_with_tools) (ps : List ContentPart) :
    ps.any ContentPart.isToolPart = true →
    ∀ (t : String) (tc : List WireToolCall),
      ∃ s, accumParts modelId ps t tc = .error (.unsupportedFunctionality s) := by
  induction ps with
  | nil => intro h; simp at h
  | cons p ps ih =>
    intro h t tc
    cases p with
    | text s =>
      simp only [List.any_cons, ContentPart.isToolPart, Bool.false_or] at h
      simp only [accumParts]
      exact ih h (t ++ s) tc
    | image u =>
      exact ⟨"Image content parts are not supported by Inflection AI at this time",
        by simp [accumParts]⟩
    | file d mt =>
      exact ⟨"File content parts are not supported by Inflection AI at this time",
        by simp [accumParts]⟩
    | toolCall a b c =>
      exact ⟨"Tool calls are only supported with the inflection_3_with_tools model",
        by simp [accumParts, hm]⟩
    | toolResult a b c =>
      exact ⟨"Tool results are only supported with the inflection_3_with_tools model",
        by simp [accumParts, hm]⟩

theorem convertMessage_toolPart_error (modelId : InflectionChatModelId)
    (hm : modelId ≠ .inflection_3_with_tools) (m : PromptMessage)
    (h : m.hasToolPart = true) :
    ∃ s, convertMessage modelId m = .error (.unsupportedFunctionality s) := by
  obtain ⟨role, content⟩ := m
  cases content with
  | str s => simp [PromptMessage.hasToolPart] at h
  | parts ps =>
    simp only [PromptMessage.hasToolPart] at h
    obtain ⟨s, hs⟩ := accumParts_toolPart_error modelId hm ps h "" []
    exact ⟨s, by simp [convertMessage, hs, Bind.bind, Except.bind]⟩

theorem convert_toolPart_error (modelId : InflectionChatModelId)
    (hm : modelId ≠ .inflection_3_with_tools) (prompt : List PromptMessage)
    (h : ∃ m ∈ prompt, m.hasToolPart = true) :
    ∃ s, convertToInflectionChatMessages prompt modelId =
      .error (.unsupportedFunctionality s) := by
  induction prompt with
  | nil => simp at h
  | cons m rest ih =>
    obtain ⟨m0, hmem, htool⟩ := h
    simp only [List.mem_cons] at hmem
    rcases hmem with rfl | hmem
    · obtain ⟨s, hs⟩ := convertMessage_toolPart_error modelId hm m0 htool
      exact ⟨s, by simp [convertToInflectionChatMessages, hs, Bind.bind, Except.bind]⟩
    · cases he : convertMessage modelId m with
      | error e =>
        obtain ⟨s⟩ := e
        exact ⟨s, by simp [convertToInflectionChatMessages, he, Bind.bind, Except.bind]⟩
      | ok entry =>
        obtain ⟨s, hs⟩ := ih ⟨m0, hmem, htool⟩
        refine ⟨s, ?_⟩
        cases entry <;>
          simp [convertToInflectionChatMessages, he, hs, Bind.bind, Except.bind]

/-- C4: a prompt containing a tool-call or tool-result part, converted for a
non-tool-capable model, fails with an UnsupportedFunctionality error both in
the message converter itself and in `getArgs`, so no request body is ever
assembled (the transport call is made only with a successfully built body). -/
theorem claim_C4_tool_parts_rejected_before_request
    (prompt : List PromptMessage) (modelId : InflectionChatModelId)
    (tools : Option (List V1Tool))
    (hm : modelId ≠ .inflection_3_with_tools)
    (h : ∃ m ∈ prompt, m.hasToolPart = true) :
    (∃ s, convertToInflectionChatMessages prompt modelId =
        .error (.unsupportedFunctionality s)) ∧
    (∃ s, getArgs modelId tools prompt = .error (.unsupportedFunctionality s)) := by
  refine ⟨convert_toolPart_error modelId hm prompt h, ?_⟩
  obtain ⟨s, hs⟩ := convert_toolPart_error modelId hm prompt h
  by_cases htools : hasDeclaredTools tools = true ∧ modelId ≠ .inflection_3_with_tools
  · exact ⟨"Tool calls are only supported with the inflection_3_with_tools model",
      by simp [getArgs, htools]⟩
  · exact ⟨s, by simp [getArgs, htools, hs, Bind.bind, Except.bind]⟩

/-- Witness for C4: a user prompt holding one tool-call part, converted for
the non-tool-capable `inflection_3_pi` model with no declared tools. -/
theorem claim_C4_tool_parts_rejected_before_request_witness :
    (∃ s, convertToInflectionChatMessages
        [{ role := .user, content := .parts [.toolCall "call-1" "tool-1" .null] }]
        .inflection_3_pi = .error (.unsupportedFunctionality s)) ∧
    (∃ s, getArgs .inflection_3_pi none
        [{ role := .user, content := .parts [.toolCall "call-1" "tool-1" .null] }] =
        .error (.unsupportedFunctionality s)) :=
  claim_C4_tool_parts_rejected_before_request
    [{ role := .user, content := .parts [.toolCall "call-1" "tool-1" .null] }]
    .inflection_3_pi none (by simp)
    ⟨{ role := .user, content := .parts [.toolCall "call-1" "tool-1" .null] },
      by simp, by rfl⟩

/-! ## Lemmas about image/file parts -/

theorem accumParts_imageOrFile_error (modelId : InflectionChatModelId)
    (ps : List ContentPart) :
    ps.any ContentPart.isImageOrFilePart = true →
    ∀ (t : String) (tc : List WireToolCall),
      ∃ s, accumParts modelId ps t tc = .error (.unsupportedFunctionality s) := by
  induction ps with
  | nil => intro h; simp at h
  | cons p ps ih =>
    intro h t tc
    cases p with
    | text s =>
      simp only [List.any_cons, ContentPart.isImageOrFilePart, Bool.false_or] at h
      simp only [accumParts]
      exact ih h (t ++ s) tc
    | image u =>
      exact ⟨"Image content parts are not supported by Inflection AI at this time",
        by simp [accumParts]⟩
    | file d mt =>
      exact ⟨"File content parts are not supported by Inflection AI at this time",
        by simp [accumParts]⟩
    | toolCall a b c =>
      simp only [List.any_cons, ContentPart.isImageOrFilePart, Bool.false_or] at h
      by_cases hm : modelId = .inflection_3_with_tools
      · have hrec := ih h t
          (tc ++ [{ id := a, function := { name := b, arguments := Json.stringify c } }])
        simpa [accumParts, hm] using hrec
      · exact ⟨"Tool calls are only supported with the inflection_3_with_tools model",
          by simp [accumParts, hm]⟩
    | toolResult a b c =>
      simp only [List.any_cons, ContentPart.isImageOrFilePart, Bool.false_or] at h
      by_cases hm : modelId = .inflection_3_with_tools
      · have hrec := ih h (Json.stringify c) tc
        simpa [accumParts, hm] using hrec
      · exact ⟨"Tool results are only supported with the inflection_3_with_tools model",
          by simp [accumParts, hm]⟩

theorem convert_error_of_message_error (modelId : InflectionChatModelId)
    (prompt : List PromptMessage)
    (h : ∃ m ∈ prompt, ∃ s, convertMessage modelId m =
      .error (.unsupportedFunctionality s)) :
    ∃ s, convertToInflectionChatMessages prompt modelId =
      .error (.unsupportedFunctionality s) := by
  induction prompt with
  | nil => simp at h
  | cons m rest ih =>
    obtain ⟨m0, hmem, s0, hs0⟩ := h
    simp only [List.mem_cons] at hmem
    rcases hmem with rfl | hmem
    · exact ⟨s0, by simp [convertToInflectionChatMessages, hs0, Bind.bind, Except.bind]⟩
    · cases he : convertMessage modelId m with
      | error e =>
        obtain ⟨s⟩ := e
        exact ⟨s, by simp [convertToInflectionChatMessages, he, Bind.bind, Except.bind]⟩
      | ok entry =>
        obtain ⟨s, hs⟩ := ih ⟨m0, hmem, s0, hs0⟩
        refine ⟨s, ?_⟩
        cases entry <;>
          simp [convertToInflectionChatMessages, he, hs, Bind.bind, Except.bind]

theorem filter_cons_keep (q : ContentPart) (ps : List ContentPart)
    (hq : q.isImageOrFilePart = false) :
    List.filter (fun p => !p.isImageOrFilePart) (q :: ps) =
      q :: List.filter (fun p => !p.isImageOrFilePart) ps := by
  simp [List.filter_cons, hq]

theorem filter_cons_drop (q : ContentPart) (ps : List ContentPart)
    (hq : q.isImageOrFilePart = true) :
    List.filter (fun p => !p.isImageOrFilePart) (q :: ps) =
      List.filter (fun p => !p.isImageOrFilePart) ps := by
  simp [List.filter_cons, hq]

theorem accumOpenAIParts_filter (ps : List ContentPart) :
    ∀ (t : String) (tc : List WireToolCall),
      accumOpenAIParts (ps.filter fun p => !p.isImageOrFilePart) t tc =
        accumOpenAIParts ps t tc := by
  induction ps with
  | nil => intro t tc; rfl
  | cons p ps ih =>
    intro t tc
    cases p with
    | text s =>
      rw [filter_cons_keep _ _ (by rfl)]
      simp only [accumOpenAIParts]
      exact ih (t ++ s) tc
    | image u =>
      rw [filter_cons_drop _ _ (by rfl)]
      simp only [accumOpenAIParts]
      exact ih t tc
    | file d mt =>
      rw [filter_cons_drop _ _ (by rfl)]
      simp only [accumOpenAIParts]
      exact ih t tc
    | toolCall a b c =>
      rw [filter_cons_keep _ _ (by rfl)]
      simp only [accumOpenAIParts]
      exact ih t (tc ++ [{ id := a, function := { name := b, arguments := Json.stringify c } }])
    | toolResult a b c =>
      rw [filter_cons_keep _ _ (by rfl)]
      simp only [accumOpenAIParts]
      exact ih (Json.stringify c) tc

theorem find?_toolResult_filter (ps : List ContentPart) :
    (ps.filter fun p => !p.isImageOrFilePart).find? ContentPart.isToolResultPart =
      ps.find? ContentPart.isToolResultPart := by
  induction ps with
  | nil => rfl
  | cons p ps ih =>
    cases p with
    | text s =>
      rw [filter_cons_keep _ _ (by rfl), List.find?, List.find?]
      simp only [ContentPart.isToolResultPart]
      exact ih
    | image u =>
      rw [filter_cons_drop _ _ (by rfl), List.find?]
      simp only [ContentPart.isToolResultPart]
      exact ih
    | file d mt =>
      rw [filter_cons_drop _ _ (by rfl), List.find?]
      simp only [ContentPart.isToolResultPart]
      exact ih
    | toolCall a b c =>
      rw [filter_cons_keep _ _ (by rfl), List.find?, List.find?]
      simp only [ContentPart.isToolResultPart]
      exact ih
    | toolResult a b c =>
      rw [filter_cons_keep _ _ (by rfl), List.find?, List.find?]
      simp only [ContentPart.isToolResultPart]

theorem convertOpenAIMessage_strip (m : PromptMessage) :
    convertOpenAIMessage
      { m with content :=
          match m.content with
          | .str s => .str s
          | .parts ps => .parts (ps.filter fun p => !p.isImageOrFilePart) } =
      convertOpenAIMessage m := by
  obtain ⟨role, content⟩ := m
  cases content with
  | str s => rfl
  | parts ps =>
    simp only [convertOpenAIMessage, accumOpenAIParts_filter ps,
      find?_toolResult_filter ps]

/-- C6 (amended): in `convertToInflectionChatMessages` any `image` or `file`
part makes conversion fail with an UnsupportedFunctionality error, but in
`convertPromptToOpenAIMessages` — the conversion path used to build
OpenAI-compatible streaming request bodies — image and file parts are
silently skipped: conversion succeeds and produces exactly what it would
produce had those parts been absent. -/
theorem claim_C6_image_file_parts :
    (∀ (prompt : List PromptMessage) (modelId : InflectionChatModelId),
      (∃ m ∈ prompt, m.hasImageOrFilePart = true) →
      ∃ s, convertToInflectionChatMessages prompt modelId =
        .error (.unsupportedFunctionality s)) ∧
    (∀ prompt : List PromptMessage,
      convertPromptToOpenAIMessages (stripUnsupportedParts prompt) =
        convertPromptToOpenAIMessages prompt) := by
  constructor
  · intro prompt modelId h
    obtain ⟨m0, hmem, hbad⟩ := h
    apply convert_error_of_message_error modelId prompt
    refine ⟨m0, hmem, ?_⟩
    obtain ⟨role, content⟩ := m0
    cases content with
    | str s => simp [PromptMessage.hasImageOrFilePart] at hbad
    | parts ps =>
      simp only [PromptMessage.hasImageOrFilePart] at hbad
      obtain ⟨s, hs⟩ := accumParts_imageOrFile_error modelId ps hbad "" []
      exact ⟨s, by simp [convertMessage, hs, Bind.bind, Except.bind]⟩
  · intro prompt
    unfold convertPromptToOpenAIMessages stripUnsupportedParts
    rw [List.map_map]
    apply List.map_congr_left
    intro m _
    exact convertOpenAIMessage_strip m

/-- Witness for C6: a prompt holding an image part makes the vendor-native
converter fail, while the same prompt is accepted by the OpenAI-messages
converter with the image part dropped. -/
theorem claim_C6_image_file_parts_witness :
    (∃ s, convertToInflectionChatMessages
        [{ role := .user, content := .parts [.image "http-image"] }]
        .inflection_3_pi = .error (.unsupportedFunctionality s)) ∧
    convertPromptToOpenAIMessages
        (stripUnsupportedParts
          [{ role := .user, content := .parts [.image "http-image"] }]) =
      convertPromptToOpenAIMessages
        [{ role := .user, content := .parts [.image "http-image"] }] :=
  ⟨claim_C6_image_file_parts.1
      [{ role := .user, content := .parts [.image "http-image"] }]
      .inflection_3_pi
      ⟨{ role := .user, content := .parts [.image "http-image"] }, by simp, by rfl⟩,
    claim_C6_image_file_parts.2 _⟩

/-- Counterexample for C6 as stated: on the OpenAI-compatible conversion path
an `image` content part does not fail — the conversion succeeds, producing a
message in which the part was silently skipped. -/
theorem claim_C6_counterexample :
    convertPromptToOpenAIMessages
        [{ role := .user, content := .parts [.image "http-image"] }] =
      [{ role := .user, content := "" }] := by rfl

/-! ## C5: tool-result handling -/

/-- C5 (amended): with the tool-capable model (a) a `tool-result` part
replaces — does not append to — the accumulated text with the JSON encoding
of its result; (b) the `tool_call_id` attached to a Tool wire entry is the
`toolCallId` of the *first* tool-result part of the message content (omitted
when that id is empty); (c) when the message content is exactly one
tool-result part, that first part is also the part whose result became the
entry's text. -/
theorem claim_C5_tool_result_replacement :
    (∀ (id name : String) (result : Json) (ps : List ContentPart)
        (t : String) (tc : List WireToolCall),
      accumParts .inflection_3_with_tools (.toolResult id name result :: ps) t tc =
        accumParts .inflection_3_with_tools ps (Json.stringify result) tc) ∧
    (∀ (ps : List ContentPart) (e : InflectionMessage),
      convertMessage .inflection_3_with_tools { role := .tool, content := .parts ps } =
        .ok (some e) →
      e.tool_call_id =
        match findToolResultId (.parts ps) with
        | some i => if i = "" then none else some i
        | none => none) ∧
    (∀ (id name : String) (result : Json),
      convertMessage .inflection_3_with_tools
          { role := .tool, content := .parts [.toolResult id name result] } =
        .ok (some
          { type := .Tool
            text := Json.stringify result
            tool_call_id := if id = "" then none else some id })) := by
  refine ⟨?_, ?_, ?_⟩
  · intro id name result ps t tc
    simp [accumParts]
  · intro ps e he
    cases ha : accumParts .inflection_3_with_tools ps "" [] with
    | error err =>
      simp [convertMessage, ha, Bind.bind, Except.bind] at he
    | ok p =>
      obtain ⟨text, tc⟩ := p
      by_cases hskip : text = "" ∧ tc = []
      · simp [convertMessage, ha, hskip, Bind.bind, Except.bind] at he
      · by_cases htext : text = ""
        · simp [convertMessage, ha, hskip, htext, Bind.bind, Except.bind] at he
        · simp [convertMessage, ha, hskip, htext, Bind.bind, Except.bind] at he
          rw [← he]
  · intro id name result
    have hne := stringify_ne_empty result
    simp [convertMessage, accumParts, Bind.bind, Except.bind, hne,
      findToolResultId, List.find?, ContentPart.isToolResultPart,
      ContentPart.resultToolCallId]

/-- Witness for C5 at a concrete single-tool-result message. -/
theorem claim_C5_tool_result_replacement_witness :
    accumParts .inflection_3_with_tools
        [ContentPart.toolResult "call-1" "tool-1" (.str "result-value")] "prior" [] =
      accumParts .inflection_3_with_tools []
        (Json.stringify (.str "result-value")) [] ∧
    convertMessage .inflection_3_with_tools
        { role := .tool
          content := .parts [.toolResult "call-1" "tool-1" (.str "result-value")] } =
      .ok (some
        { type := .Tool
          text := Json.stringify (.str "result-value")
          tool_call_id := some "call-1" }) := by
  constructor
  · exact claim_C5_tool_result_replacement.1 "call-1" "tool-1" (.str "result-value")
      [] "prior" []
  · have h := claim_C5_tool_result_replacement.2.2 "call-1" "tool-1" (.str "result-value")
    simpa using h

/-- Counterexample for C5 as stated: a tool message holding two tool-result
parts.  The entry's text is the JSON encoding of the *second* part's result
(`"call-b"`'s result `"rb"`), yet the attached `tool_call_id` is `"call-a"`,
the id of the *first* part — not the id of the part whose result became the
text. -/
theorem claim_C5_counterexample :
    convertToInflectionChatMessages
        [{ role := .tool
           content := .parts
             [.toolResult "call-a" "tool-a" (.str "ra"),
              .toolResult "call-b" "tool-b" (.str "rb")] }]
        .inflection_3_with_tools =
      .ok [{ type := .Tool
             text := Json.stringify (.str "rb")
             tool_call_id := some "call-a" }] ∧
    ("call-a" : String) ≠ "call-b" := by
  constructor
  · rfl
  · decide

/-! ## C10: tool_calls only on AI entries -/

theorem convertMessage_toolCalls_only_AI (modelId : InflectionChatModelId)
    (m : PromptMessage) (e : InflectionMessage)
    (he : convertMessage modelId m = .ok (some e))
    (htc : e.tool_calls ≠ none) : e.type = .AI := by
  obtain ⟨role, content⟩ := m
  cases content with
  | str s =>
    by_cases hs : s = ""
    · simp [convertMessage, hs, Bind.bind, Except.bind] at he
    · cases role with
      | user =>
        simp [convertMessage, hs, Bind.bind, Except.bind] at he
        subst he
        simp at htc
      | assistant =>
        simp [convertMessage, hs, Bind.bind, Except.bind] at he
        subst he
        rfl
      | system =>
        simp [convertMessage, hs, Bind.bind, Except.bind] at he
        subst he
        simp at htc
      | tool =>
        simp [convertMessage, hs, Bind.bind, Except.bind] at he
        subst he
        simp at htc
  | parts ps =>
    cases ha : accumParts modelId ps "" [] with
    | error err => simp [convertMessage, ha, Bind.bind, Except.bind] at he
    | ok p =>
      obtain ⟨text, tc⟩ := p
      by_cases hskip : text = "" ∧ tc = []
      · simp [convertMessage, ha, hskip, Bind.bind, Except.bind] at he
      · cases role with
        | user =>
          simp [convertMessage, ha, hskip, Bind.bind, Except.bind] at he
          subst he
          simp at htc
        | assistant =>
          simp [convertMessage, ha, hskip, Bind.bind, Except.bind] at he
          subst he
          rfl
        | system =>
          simp [convertMessage, ha, hskip, Bind.bind, Except.bind] at he
          subst he
          simp at htc
        | tool =>
          by_cases htext : text = ""
          · simp [convertMessage, ha, hskip, htext, Bind.bind, Except.bind] at he
          · simp [convertMessage, ha, hskip, htext, Bind.bind, Except.bind] at he
            subst he
            simp at htc

/-- C10: (general part) in any successful conversion, a wire entry carrying a
`tool_calls` field is always of type AI — tool calls collected from
non-assistant messages are silently discarded; (concrete part) a user-role
message whose content is exactly one tool-call part is not skipped and
produces the wire entry `{type: "Human", text: ""}` with no `tool_calls` and
no `tool_call_id`. -/
theorem claim_C10_tool_calls_only_on_AI :
    (∀ (prompt : List PromptMessage) (modelId : InflectionChatModelId)
        (res : List InflectionMessage),
      convertToInflectionChatMessages prompt modelId = .ok res →
      ∀ e ∈ res, e.tool_calls ≠ none → e.type = .AI) ∧
    convertToInflectionChatMessages
        [{ role := .user, content := .parts [.toolCall "call-1" "tool-1" .null] }]
        .inflection_3_with_tools =
      .ok [{ type := .Human, text := "", tool_calls := none, tool_call_id := none }] := by
  constructor
  · intro prompt
    induction prompt with
    | nil =>
      intro modelId res hres e he
      simp [convertToInflectionChatMessages] at hres
      subst hres
      simp at he
    | cons m rest ih =>
      intro modelId res hres e he htc
      cases hm : convertMessage modelId m with
      | error err =>
        simp [convertToInflectionChatMessages, hm, Bind.bind, Except.bind] at hres
      | ok entry =>
        cases htail : convertToInflectionChatMessages rest modelId with
        | error err =>
          cases entry <;>
            simp [convertToInflectionChatMessages, hm, htail, Bind.bind, Except.bind] at hres
        | ok tail =>
          cases entry with
          | none =>
            have : res = tail := by
              simpa [convertToInflectionChatMessages, hm, htail, Bind.bind, Except.bind]
                using hres.symm
            rw [this] at he
            exact ih modelId tail htail e he htc
          | some e0 =>
            have : res = e0 :: tail := by
              simpa [convertToInflectionChatMessages, hm, htail, Bind.bind, Except.bind]
                using hres.symm
            rw [this] at he
            rcases List.mem_cons.mp he with rfl | hmem
            · exact convertMessage_toolCalls_only_AI modelId m e hm htc
            · exact ih modelId tail htail e hmem htc
  · rfl

/-- Witness for C10 at a concrete assistant message whose entry does carry
`tool_calls`. -/
theorem claim_C10_tool_calls_only_on_AI_witness :
    InflectionMessage.type
      { type := .AI
        text := ""
        tool_calls := some
          [{ id := "call-1", function := { name := "tool-1", arguments := "null" } }]
        tool_call_id := none } = .AI :=
  claim_C10_tool_calls_only_on_AI.1
    [{ role := .assistant, content := .parts [.toolCall "call-1" "tool-1" .null] }]
    .inflection_3_with_tools
    [{ type := .AI
       text := ""
       tool_calls := some
         [{ id := "call-1", function := { name := "tool-1", arguments := "null" } }]
       tool_call_id := none }]
    (by rfl) _ (by simp) (by simp)

/-! ## C8 and C9: non-streaming result normalization -/

theorem promptText_length (ctx : List InflectionMessage) :
    (promptText ctx).length = (ctx.map fun m => m.text.length).sum := by
  induction ctx with
  | nil => rfl
  | cons m rest ih =>
    simp only [promptText, String.length_append, List.map_cons, List.sum_cons, ih]

/-- C8: for every shape-valid non-streaming vendor response, the normalized
finish reason is "tool-calls" exactly when the decoded tool_calls array is
non-empty, and "stop" in every other case; a wire `tool_calls: null` is
normalized by the schema transform to the empty array (so it yields "stop",
not an error); and any successfully assembled generate result carries exactly
this finish reason. -/
theorem claim_C8_finish_reason (raw : RawChatResponse) :
    (responseFinishReason (decodeChatResponse raw) = .toolCalls ↔
      (decodeChatResponse raw).tool_calls.getD [] ≠ []) ∧
    (responseFinishReason (decodeChatResponse raw) = .toolCalls ∨
      responseFinishReason (decodeChatResponse raw) = .stop) ∧
    (decodeChatResponse { raw with tool_calls := .null }).tool_calls = some [] ∧
    (∀ (parse : String → Option Json) (ctx : List InflectionMessage)
        (res : GenerateResult),
      processGenerateResponse parse ctx (decodeChatResponse raw) = .ok res →
      res.finishReason = responseFinishReason (decodeChatResponse raw)) := by
  refine ⟨?_, ?_, ?_, ?_⟩
  · cases h : raw.tool_calls with
    | absent => simp [decodeChatResponse, responseFinishReason, h]
    | null => simp [decodeChatResponse, responseFinishReason, h]
    | value l =>
      cases l with
      | nil => simp [decodeChatResponse, responseFinishReason, h]
      | cons a as => simp [decodeChatResponse, responseFinishReason, h]
  · cases h : raw.tool_calls with
    | absent => simp [decodeChatResponse, responseFinishReason, h]
    | null => simp [decodeChatResponse, responseFinishReason, h]
    | value l =>
      cases l with
      | nil => simp [decodeChatResponse, responseFinishReason, h]
      | cons a as => simp [decodeChatResponse, responseFinishReason, h]
  · simp [decodeChatResponse]
  · intro parse ctx res hres
    cases h : (decodeChatResponse raw).tool_calls with
    | none =>
      simp [processGenerateResponse, h, Bind.bind, Except.bind] at hres
      rw [← hres]
    | some calls =>
      cases hd : decodeToolCalls parse calls with
      | error e =>
        simp [processGenerateResponse, h, hd, Bind.bind, Except.bind] at hres
      | ok l =>
        simp [processGenerateResponse, h, hd, Bind.bind, Except.bind] at hres
        rw [← hres]

/-- Witness for C8 at a concrete response carrying one tool call with valid
JSON arguments. -/
theorem claim_C8_finish_reason_witness :
    GenerateResult.finishReason
      { text := "hi"
        finishReason := .toolCalls
        usage := { promptTokens := 0, completionTokens := 1 }
        toolCalls := some [{ toolCallId := "call-1", toolName := "tool-1", args := .null }] } =
      responseFinishReason (decodeChatResponse
        { created := 1
          text := "hi"
          tool_calls := .value
            [{ id := "call-1", function := { name := "tool-1", arguments := "null" } }] }) :=
  (claim_C8_finish_reason
    { created := 1
      text := "hi"
      tool_calls := .value
        [{ id := "call-1", function := { name := "tool-1", arguments := "null" } }] }).2.2.2
    jsonParse []
    { text := "hi"
      finishReason := .toolCalls
      usage := { promptTokens := 0, completionTokens := 1 }
      toolCalls := some [{ toolCallId := "call-1", toolName := "tool-1", args := .null }] }
    (by rfl)

/-- C9: every successfully assembled non-streaming generate result estimates
`promptTokens = ceil(total prompt character count / 4)` — the total being the
length of the concatenation of the `text` of every wire message sent — and
`completionTokens = ceil(response text length / 4)`; both are natural
numbers, hence integers ≥ 0. -/
theorem claim_C9_usage_estimate (parse : String → Option Json)
    (ctx : List InflectionMessage) (resp : ChatResponse) (res : GenerateResult)
    (h : processGenerateResponse parse ctx resp = .ok res) :
    res.usage.promptTokens = ceilDiv4 (promptText ctx).length ∧
    res.usage.promptTokens = ceilDiv4 ((ctx.map fun m => m.text.length).sum) ∧
    res.usage.completionTokens = ceilDiv4 resp.text.length := by
  have husage : res.usage =
      { promptTokens := ceilDiv4 (promptText ctx).length
        completionTokens := ceilDiv4 resp.text.length } := by
    cases hc : resp.tool_calls with
    | none =>
      simp [processGenerateResponse, hc, Bind.bind, Except.bind] at h
      rw [← h]
    | some calls =>
      cases hd : decodeToolCalls parse calls with
      | error e =>
        simp [processGenerateResponse, hc, hd, Bind.bind, Except.bind] at h
      | ok l =>
        simp [processGenerateResponse, hc, hd, Bind.bind, Except.bind] at h
        rw [← h]
  refine ⟨by rw [husage], by rw [husage]; simp [promptText_length], by rw [husage]⟩

/-- Witness for C9 at a concrete context and response: 5 prompt characters
give promptTokens 2, 2 response characters give completionTokens 1. -/
theorem claim_C9_usage_estimate_witness :
    ({ text := "hi"
       finishReason := .stop
       usage := { promptTokens := 2, completionTokens := 1 }
       toolCalls := none } : GenerateResult).usage.promptTokens =
      ceilDiv4 (promptText [{ type := .Human, text := "abcde" }]).length ∧
    ({ text := "hi"
       finishReason := .stop
       usage := { promptTokens := 2, completionTokens := 1 }
       toolCalls := none } : GenerateResult).usage.promptTokens =
      ceilDiv4 ((([{ type := .Human, text := "abcde" }] :
        List InflectionMessage).map fun m => m.text.length).sum) ∧
    ({ text := "hi"
       finishReason := .stop
       usage := { promptTokens := 2, completionTokens := 1 }
       toolCalls := none } : GenerateResult).usage.completionTokens =
      ceilDiv4 ({ created := 1, text := "hi", tool_calls := none } :
        ChatResponse).text.length :=
  claim_C9_usage_estimate jsonParse
    [{ type := .Human, text := "abcde" }]
    { created := 1, text := "hi", tool_calls := none }
    { text := "hi"
      finishReason := .stop
      usage := { promptTokens := 2, completionTokens := 1 }
      toolCalls := none }
    (by rfl)

/-! ## Stream decoder lemmas -/

theorem deltaTokens_nil : deltaTokens [] = 0 := rfl

theorem deltaTokens_cons (e : StreamEvent) (l : List StreamEvent) :
    deltaTokens (e :: l) = eventTokens e + deltaTokens l := by
  simp [deltaTokens]

theorem deltaTokens_append (a b : List StreamEvent) :
    deltaTokens (a ++ b) = deltaTokens a + deltaTokens b := by
  simp [deltaTokens]

theorem toolCallEventsNative_tokens (parse : String → Option Json)
    (calls : List WireToolCall) :
    deltaTokens (toolCallEventsNative parse calls) = 0 := by
  induction calls with
  | nil => rfl
  | cons c cs ih =>
    cases hp : parse c.function.arguments <;>
      rw [toolCallEventsNative, hp] <;>
        simp [deltaTokens_cons, eventTokens, ih]

theorem toolCallEventsNative_noFinish (parse : String → Option Json)
    (calls : List WireToolCall) :
    ∀ e ∈ toolCallEventsNative parse calls, e.isFinishEvent = false := by
  induction calls with
  | nil => simp [toolCallEventsNative]
  | cons c cs ih =>
    intro e he
    cases hp : parse c.function.arguments <;>
      rw [toolCallEventsNative, hp] at he <;>
        rcases List.mem_cons.mp he with rfl | hmem <;>
          first
          | rfl
          | exact ih e hmem

theorem toolCallEventsOpenAI_tokens (parse : String → Option Json)
    (calls : List WireToolCall) :
    deltaTokens (toolCallEventsOpenAI parse calls) = 0 := by
  induction calls with
  | nil => rfl
  | cons c cs ih =>
    cases hp : parse c.function.arguments <;>
      rw [toolCallEventsOpenAI, hp] <;>
        simp [deltaTokens_cons, deltaTokens_append, eventTokens, ih]

theorem toolCallEventsOpenAI_noFinish (parse : String → Option Json)
    (calls : List WireToolCall) :
    ∀ e ∈ toolCallEventsOpenAI parse calls, e.isFinishEvent = false := by
  induction calls with
  | nil => simp [toolCallEventsOpenAI]
  | cons c cs ih =>
    intro e he
    cases hp : parse c.function.arguments with
    | some args =>
      rw [toolCallEventsOpenAI, hp] at he
      simp only [List.cons_append, List.singleton_append, List.mem_cons] at he
      rcases he with rfl | rfl | hmem
      · rfl
      · rfl
      · exact ih e hmem
    | none =>
      rw [toolCallEventsOpenAI, hp] at he
      simp only [List.cons_append, List.singleton_append, List.mem_cons] at he
      rcases he with rfl | rfl | hmem
      · rfl
      · rfl
      · exact ih e hmem

theorem stepNative_tokens (parse : String → Option Json) (s : DecodeState)
    (c : NativeChunk) :
    (stepNative parse s c).1.completionTokens =
      s.completionTokens + deltaTokens (stepNative parse s c).2 := by
  unfold stepNative
  by_cases ht : c.text = "" <;> by_cases hi : c.idx = 0 <;>
    cases hc : c.tool_calls <;>
      simp [ht, hi, hc, deltaTokens_append, deltaTokens_cons, deltaTokens_nil,
        toolCallEventsNative_tokens, eventTokens, ceilDiv4]

theorem stepNative_noFinish (parse : String → Option Json) (s : DecodeState)
    (c : NativeChunk) :
    ∀ e ∈ (stepNative parse s c).2, e.isFinishEvent = false := by
  intro e he
  unfold stepNative at he
  simp only [List.mem_append] at he
  rcases he with (hm | hm) | hm
  · by_cases hi : c.idx = 0 <;> simp [hi] at hm
    · rw [hm]; rfl
  · by_cases ht : c.text = "" <;> simp [ht] at hm
    · rw [hm]; rfl
  · cases hc : c.tool_calls with
    | none => rw [hc] at hm; simp at hm
    | some calls =>
      rw [hc] at hm
      exact toolCallEventsNative_noFinish parse calls e hm

theorem stepOpenAI_tokens (parse : String → Option Json) (s : DecodeState)
    (c : OpenAIChunk) :
    (stepOpenAI parse s c).1.completionTokens =
      s.completionTokens + deltaTokens (stepOpenAI parse s c).2 := by
  unfold stepOpenAI
  cases hch : c.choices with
  | nil => simp [deltaTokens_cons, deltaTokens_nil, eventTokens]
  | cons choice rest =>
    cases hdc : choice.delta.content with
    | none =>
      cases hdt : choice.delta.tool_calls with
      | none => simp [hdc, hdt, deltaTokens_nil]
      | some calls =>
        cases calls <;>
          simp [hdc, hdt, deltaTokens_append, deltaTokens_nil,
            toolCallEventsOpenAI_tokens]
    | some t =>
      by_cases ht : t = "" <;>
        cases hdt : choice.delta.tool_calls with
        | none =>
          simp [hdc, hdt, ht, deltaTokens_cons, deltaTokens_nil, eventTokens]
        | some calls =>
          cases calls <;>
            simp [hdc, hdt, ht, deltaTokens_append, deltaTokens_cons,
              deltaTokens_nil, toolCallEventsOpenAI_tokens, eventTokens]

theorem stepOpenAI_noFinish (parse : String → Option Json) (s : DecodeState)
    (c : OpenAIChunk) :
    ∀ e ∈ (stepOpenAI parse s c).2, e.isFinishEvent = false := by
  intro e he
  unfold stepOpenAI at he
  cases hch : c.choices with
  | nil =>
    rw [hch] at he
    simp at he
    rw [he]; rfl
  | cons choice rest =>
    rw [hch] at he
    simp only [List.mem_append] at he
    rcases he with hm | hm
    · cases hdc : choice.delta.content with
      | none => rw [hdc] at hm; simp at hm
      | some t =>
        rw [hdc] at hm
        by_cases ht : t = "" <;> simp [ht] at hm
        · rw [hm]; rfl
    · cases hdt : choice.delta.tool_calls with
      | none => rw [hdt] at hm; simp at hm
      | some calls =>
        cases calls with
        | nil => rw [hdt] at hm; simp at hm
        | cons call more =>
          rw [hdt] at hm
          exact toolCallEventsOpenAI_noFinish parse (call :: more) e hm

theorem stepChunk_tokens (parse : String → Option Json) (u : Bool)
    (s : DecodeState) (chunk : RawChunk) :
    (stepChunk parse u s chunk).1.completionTokens =
      s.completionTokens + deltaTokens (stepChunk parse u s chunk).2 := by
  cases chunk with
  | failure msg => simp [stepChunk, deltaTokens_cons, deltaTokens_nil, eventTokens]
  | success v =>
    cases u <;> cases v <;>
      simp [stepChunk, deltaTokens_cons, deltaTokens_nil, eventTokens,
        stepNative_tokens, stepOpenAI_tokens]

theorem stepChunk_noFinish (parse : String → Option Json) (u : Bool)
    (s : DecodeState) (chunk : RawChunk) :
    ∀ e ∈ (stepChunk parse u s chunk).2, e.isFinishEvent = false := by
  intro e he
  cases chunk with
  | failure msg =>
    simp [stepChunk] at he
    rw [he]; rfl
  | success v =>
    cases u <;> cases v <;> simp [stepChunk] at he <;>
      first
      | (rw [he]; rfl)
      | exact stepNative_noFinish parse s _ e he
      | exact stepOpenAI_noFinish parse s _ e he

theorem runChunks_tokens (parse : String → Option Json) (u : Bool) :
    ∀ (chunks : List RawChunk) (s : DecodeState),
      (runChunks parse u s chunks).1.completionTokens =
        s.completionTokens + deltaTokens (runChunks parse u s chunks).2 := by
  intro chunks
  induction chunks with
  | nil => intro s; simp [runChunks, deltaTokens_nil]
  | cons chunk rest ih =>
    intro s
    simp only [runChunks]
    rw [deltaTokens_append, ih (stepChunk parse u s chunk).1,
      stepChunk_tokens parse u s chunk]
    omega

theorem runChunks_noFinish (parse : String → Option Json) (u : Bool) :
    ∀ (chunks : List RawChunk) (s : DecodeState),
      ∀ e ∈ (runChunks parse u s chunks).2, e.isFinishEvent = false := by
  intro chunks
  induction chunks with
  | nil => intro s e he; simp [runChunks] at he
  | cons chunk rest ih =>
    intro s e he
    simp only [runChunks, List.mem_append] at he
    rcases he with hm | hm
    · exact stepChunk_noFinish parse u s chunk e hm
    · exact ih (stepChunk parse u s chunk).1 e hm

/-- C1: for every finite raw wire-event sequence, in either wire format, the
decoder's output is a prefix containing no `finish` event followed by exactly
one terminal `finish` event, whose usage carries the `promptTokens` fixed at
stream start and a `completionTokens` equal to the sum over the emitted
text-delta events of `ceil(length/4)`. -/
theorem claim_C1_exactly_one_finish_with_token_sum
    (parse : String → Option Json) (useOpenAI : Bool) (promptTokens : Nat)
    (chunks : List RawChunk) :
    ∃ (pre : List StreamEvent) (reason : FinishReason),
      decodeStream parse useOpenAI promptTokens chunks =
        pre ++ [.finish reason
          { promptTokens := promptTokens, completionTokens := deltaTokens pre }] ∧
      ∀ e ∈ pre, e.isFinishEvent = false := by
  refine ⟨(runChunks parse useOpenAI initState chunks).2,
    (runChunks parse useOpenAI initState chunks).1.finishReason, ?_, ?_⟩
  · have h := runChunks_tokens parse useOpenAI chunks initState
    rw [show initState.completionTokens = 0 from rfl, Nat.zero_add] at h
    show (runChunks parse useOpenAI initState chunks).2 ++
        [StreamEvent.finish
          (runChunks parse useOpenAI initState chunks).1.finishReason
          { promptTokens := promptTokens
            completionTokens :=
              (runChunks parse useOpenAI initState chunks).1.completionTokens }] = _
    rw [h]
  · exact runChunks_noFinish parse useOpenAI chunks initState

/-- C7: a tool-call arguments string that does not parse as JSON (a) makes
the whole non-streaming generate call fail with an ArgumentDecodeFailure,
while (b) in vendor-native streaming every bad call yields exactly one
`error` event and every good call exactly one `tool-call` event — the loop
continues across them — and (c) the decoder still terminates any chunk
sequence with the single terminal `finish` event. -/
theorem claim_C7_argument_decode_asymmetry :
    (∀ (parse : String → Option Json) (ctx : List InflectionMessage)
        (resp : ChatResponse),
      (∃ call ∈ resp.tool_calls.getD [], parse call.function.arguments = none) →
      ∃ a, processGenerateResponse parse ctx resp =
        .error (.argumentDecodeFailure a)) ∧
    (∀ (parse : String → Option Json) (calls : List WireToolCall),
      (toolCallEventsNative parse calls).countP (fun e => e.isErrorEvent) =
        calls.countP (fun c => (parse c.function.arguments).isNone) ∧
      (toolCallEventsNative parse calls).countP (fun e => e.isToolCallEvent) =
        calls.countP (fun c => (parse c.function.arguments).isSome)) ∧
    (∀ (parse : String → Option Json) (pt : Nat) (chunks : List RawChunk),
      ∃ pre reason usage,
        decodeStream parse false pt chunks = pre ++ [.finish reason usage] ∧
        ∀ e ∈ pre, e.isFinishEvent = false) := by
  refine ⟨?_, ?_, ?_⟩
  · intro parse ctx resp h
    obtain ⟨call, hmem, hcall⟩ := h
    cases hc : resp.tool_calls with
    | none => rw [hc] at hmem; simp at hmem
    | some calls =>
      rw [hc] at hmem
      simp only [Option.getD_some] at hmem
      have herr : ∃ a, decodeToolCalls parse calls =
          .error (.argumentDecodeFailure a) := by
        clear hc
        induction calls with
        | nil => simp at hmem
        | cons c cs ih =>
          rcases List.mem_cons.mp hmem with rfl | hmem2
          · exact ⟨call.function.arguments, by simp [decodeToolCalls, hcall]⟩
          · cases hp : parse c.function.arguments with
            | none => exact ⟨c.function.arguments, by simp [decodeToolCalls, hp]⟩
            | some args =>
              obtain ⟨a, ha⟩ := ih hmem2
              exact ⟨a, by simp [decodeToolCalls, hp, ha, Bind.bind, Except.bind]⟩
      obtain ⟨a, ha⟩ := herr
      exact ⟨a, by simp [processGenerateResponse, hc, ha, Bind.bind, Except.bind]⟩
  · intro parse calls
    induction calls with
    | nil => simp [toolCallEventsNative]
    | cons c cs ih =>
      obtain ⟨ih1, ih2⟩ := ih
      cases hp : parse c.function.arguments with
      | none =>
        rw [toolCallEventsNative, hp]
        refine ⟨?_, ?_⟩
        · simp only [List.countP_cons]
          rw [ih1]
          simp [hp, StreamEvent.isErrorEvent]
        · simp only [List.countP_cons]
          rw [ih2]
          simp [hp, StreamEvent.isToolCallEvent]
      | some args =>
        rw [toolCallEventsNative, hp]
        refine ⟨?_, ?_⟩
        · simp only [List.countP_cons]
          rw [ih1]
          simp [hp, StreamEvent.isErrorEvent]
        · simp only [List.countP_cons]
          rw [ih2]
          simp [hp, StreamEvent.isToolCallEvent]
  · intro parse pt chunks
    refine ⟨(runChunks parse false initState chunks).2,
      (runChunks parse false initState chunks).1.finishReason, _, rfl, ?_⟩
    exact runChunks_noFinish parse false chunks initState

/-- Witness for C7: a response carrying one tool call whose arguments string
is empty (JSON.parse rejects the empty string). -/
theorem claim_C7_argument_decode_asymmetry_witness :
    ∃ a, processGenerateResponse jsonParse []
        { created := 1
          text := ""
          tool_calls := some
            [{ id := "call-1", function := { name := "tool-1", arguments := "" } }] } =
      .error (.argumentDecodeFailure a) :=
  claim_C7_argument_decode_asymmetry.1 jsonParse []
    { created := 1
      text := ""
      tool_calls := some
        [{ id := "call-1", function := { name := "tool-1", arguments := "" } }] }
    ⟨{ id := "call-1", function := { name := "tool-1", arguments := "" } },
      by simp, by rfl⟩

/-- C2 (amended): in OpenAI-compatible streaming, for every tool-call entry a
`tool-call-delta` is emitted unconditionally, then the decoder attempts to
JSON-decode that entry's own arguments text (there is no cross-chunk
accumulation); on success it additionally emits a `tool-call`, and on
failure it emits an `error` event — parse failures are surfaced, not
swallowed — and processing continues with the remaining entries. -/
theorem claim_C2_openai_tool_call_processing (parse : String → Option Json) :
    (∀ (call : WireToolCall) (rest : List WireToolCall),
      toolCallEventsOpenAI parse (call :: rest) =
        .toolCallDelta call.id call.function.name call.function.arguments ::
          ((match parse call.function.arguments with
            | some args => [.toolCall call.id call.function.name args]
            | none => [.error "Failed to process tool call"]) ++
            toolCallEventsOpenAI parse rest)) ∧
    (∀ calls : List WireToolCall,
      (toolCallEventsOpenAI parse calls).countP
          (fun e => e.isToolCallDeltaEvent) = calls.length ∧
      (toolCallEventsOpenAI parse calls).countP (fun e => e.isToolCallEvent) =
        calls.countP (fun c => (parse c.function.arguments).isSome) ∧
      (toolCallEventsOpenAI parse calls).countP (fun e => e.isErrorEvent) =
        calls.countP (fun c => (parse c.function.arguments).isNone)) := by
  constructor
  · intro call rest
    cases hp : parse call.function.arguments <;>
      rw [toolCallEventsOpenAI, hp] <;> rfl
  · intro calls
    induction calls with
    | nil => simp [toolCallEventsOpenAI]
    | cons c cs ih =>
      obtain ⟨ih1, ih2, ih3⟩ := ih
      cases hp : parse c.function.arguments with
      | none =>
        rw [toolCallEventsOpenAI, hp, List.cons_append, List.singleton_append]
        refine ⟨?_, ?_, ?_⟩
        · simp only [List.countP_cons, List.length_cons]
          rw [ih1]
          simp [StreamEvent.isToolCallDeltaEvent]
        · simp only [List.countP_cons]
          rw [ih2]
          simp [hp, StreamEvent.isToolCallEvent]
        · simp only [List.countP_cons]
          rw [ih3]
          simp [hp, StreamEvent.isErrorEvent]
      | some args =>
        rw [toolCallEventsOpenAI, hp, List.cons_append, List.singleton_append]
        refine ⟨?_, ?_, ?_⟩
        · simp only [List.countP_cons, List.length_cons]
          rw [ih1]
          simp [StreamEvent.isToolCallDeltaEvent]
        · simp only [List.countP_cons]
          rw [ih2]
          simp [hp, StreamEvent.isToolCallEvent]
        · simp only [List.countP_cons]
          rw [ih3]
          simp [hp, StreamEvent.isErrorEvent]

/-- Counterexample for C2 as stated: an OpenAI-compatible stream delivering
one tool call's arguments in two fragments, `"{"` then `"}"`.  The claim
demands that the per-fragment parse failures be swallowed (no `error`
events) and that a `tool-call` be emitted once the *accumulated* text `"{}"`
parses.  The decoder instead emits an `error` event after each fragment's
`tool-call-delta` and never emits any `tool-call`, although the concatenated
arguments text is complete JSON. -/
theorem claim_C2_counterexample :
    decodeStream jsonParse true 7
        [.success (.openai
          { id := "chunk-1", created := 1, model := "m"
            choices := [{ index := 0
                          delta := { content := none
                                     tool_calls := some
                                       [{ id := "call-1"
                                          function := { name := "f", arguments := "\x7b" } }] }
                          finish_reason := none }] }),
         .success (.openai
          { id := "chunk-2", created := 1, model := "m"
            choices := [{ index := 0
                          delta := { content := none
                                     tool_calls := some
                                       [{ id := "call-1"
                                          function := { name := "f", arguments := "\x7d" } }] }
                          finish_reason := none }] })] =
      [.toolCallDelta "call-1" "f" "\x7b", .error "Failed to process tool call",
       .toolCallDelta "call-1" "f" "\x7d", .error "Failed to process tool call",
       .finish .toolCalls { promptTokens := 7, completionTokens := 0 }] ∧
    jsonParse ("\x7b" ++ "\x7d") = some (.obj []) := by
  constructor
  · rfl
  · rfl
